import Mathlib

/-!
Verification of the LISA requirement/capability and tool-resolution core.

The development shallowly embeds the Python sources: pure functions become
Lean functions, fallible code returns `Except`, floats are modelled as
rationals, and the stateful tool resolver is explicit state passing on a
first-order state record.  Components of the framework that are only
referenced by the sources (the capability matcher, the per-node tool
resolver, the operating-system class hierarchy) are modelled from the
specification and are marked as such in their doc comments.
-/

namespace Lisa

/-! ## GPU feature settings (src/lisa/features/gpu.py) -/

/-- `GpuSettings` from `src/lisa/features/gpu.py`: a feature-settings
dataclass with fields `type` (default `"Gpu"`), `install_by_platform`
(default `True`) and `is_enabled` (default `False`). -/
structure GpuSettings where
  type : String := "Gpu"
  install_by_platform : Bool := true
  is_enabled : Bool := false
  deriving DecidableEq, Repr

/-- Python's `str` rendering of a `bool`, as produced by the f-string in
`GpuSettings._get_key`. -/
def pyBoolStr : Bool → String
  | true => "True"
  | false => "False"

/-- `GpuSettings._get_key`: the string `f"{self.type}/{self.install_by_platform}"`. -/
def GpuSettings.get_key (s : GpuSettings) : String :=
  s.type ++ "/" ++ pyBoolStr s.install_by_platform

/-- `GpuSettings.__hash__` returns `hash(self._get_key())`.  Python's string
hash is an unspecified deterministic function of the key, so two settings
hash equal exactly when their keys are equal; the embedding therefore uses
the key itself as the hash value. -/
def GpuSettings.hashValue (s : GpuSettings) : String :=
  s.get_key

/-- `GpuEnabled = partial(GpuSettings, is_enabled=True)` applied with no
further arguments. -/
def GpuEnabled : GpuSettings :=
  { is_enabled := true }

/-- The default `GpuSettings()` instance. -/
def GpuSettingsDefault : GpuSettings := {}

/-! ## calculate_middle_average (src/microsoft/testsuites/performance/common.py) -/

/-- Minimum of a nonempty list, as Python's `min(values)`. -/
def listMin (v : ℚ) (vs : List ℚ) : ℚ :=
  vs.foldl min v

/-- Maximum of a nonempty list, as Python's `max(values)`. -/
def listMax (v : ℚ) (vs : List ℚ) : ℚ :=
  vs.foldl max v

/-- `calculate_middle_average` from
`src/microsoft/testsuites/performance/common.py`: discards the min and the
max, then averages: `(sum(values) - min(values) - max(values)) / (len(values) - 2)`.
Numbers are modelled as rationals.  `min`/`max` of an empty list raise
`ValueError` in Python, and a two-element list makes the divisor zero,
raising `ZeroDivisionError`; both are modelled as `Except.error`. -/
def calculate_middle_average (values : List ℚ) : Except String ℚ :=
  match values with
  | [] => .error "ValueError: arg is an empty sequence"
  | v :: vs =>
    if values.length = 2 then
      .error "ZeroDivisionError: division by zero"
    else
      .ok ((values.sum - listMin v vs - listMax v vs) / ((values.length : ℚ) - 2))

/-! ## Gpu.remove_virtual_gpus (src/lisa/features/gpu.py) -/

/-- `PciDevice` from `lisa.tools.lspci`, restricted to the fields the
sources read; `vendor` is the one `remove_virtual_gpus` consults. -/
structure PciDevice where
  slot : String := ""
  device_class : String := ""
  vendor : String := ""
  device_info : String := ""
  deriving DecidableEq, Repr

/-- `Gpu.remove_virtual_gpus`: the list comprehension
`[x for x in devices if x.vendor != "Microsoft Corporation"]`. -/
def remove_virtual_gpus (devices : List PciDevice) : List PciDevice :=
  devices.filter (fun x => x.vendor != "Microsoft Corporation")

/-- A Microsoft virtual GPU device, as filtered out by `remove_virtual_gpus`. -/
def msVirtualDevice : PciDevice := { vendor := "Microsoft Corporation" }

/-- A physical NVIDIA GPU device. -/
def nvidiaDevice : PciDevice := { vendor := "NVIDIA Corporation" }

/-! ## Operating-system classes and OS-conditional installation
(src/lisa/tools/docker.py, src/lisa/features/gpu.py) -/

/-- Modelled from the spec: the sources import OS classes from
`lisa.operating_system`, which is not under `src/`.  The classes referenced
by the sources are modelled with the subclass relations the spec's
"OS family" notion presupposes: `Ubuntu` is a `Debian` derivative and
`CentOs` a `Redhat` derivative; `Suse`, `FreeBSD` and `Windows` stand for
operating systems outside every supported set. -/
inductive OsClass
  | Debian
  | Ubuntu
  | Redhat
  | CentOs
  | CBLMariner
  | Suse
  | FreeBSD
  | Windows
  deriving DecidableEq, Repr

/-- The ancestor classes of an OS class, itself included: the classes `c`
for which Python's `isinstance(os, c)` holds. -/
def OsClass.ancestors : OsClass → List OsClass
  | .Debian => [.Debian]
  | .Ubuntu => [.Ubuntu, .Debian]
  | .Redhat => [.Redhat]
  | .CentOs => [.CentOs, .Redhat]
  | .CBLMariner => [.CBLMariner]
  | .Suse => [.Suse]
  | .FreeBSD => [.FreeBSD]
  | .Windows => [.Windows]

/-- `isinstance(os, parent)` for the modelled hierarchy. -/
def isInstance (c parent : OsClass) : Bool :=
  (c.ancestors).contains parent

/-- The slice of `node.os` that `Docker.install` and `Gpu._install_gpu_dep`
read: the concrete class, `information.release`, `information.vendor` and
`name`. -/
structure Os where
  cls : OsClass
  release : String := ""
  vendor : String := ""
  name : String := ""

/-- Outcome of `Docker.install` (src/lisa/tools/docker.py), one constructor
per branch of its `isinstance` chain. -/
inductive DockerInstallAction
  | installPackages (packages : List String)
  | getDockerScript
  | marinerStaticInstall
  | raiseUnsupported (message : String)
  deriving DecidableEq, Repr

/-- `Docker.install`: Debian derivatives get `docker.io`; CentOS with
release `>= "8.0"` (Python string comparison) runs the get-docker script;
other Redhat derivatives get the docker package list; CBLMariner gets the
static binaries; every other OS raises
`LisaException(f"{self.node.os.information.vendor} not supported")`. -/
def dockerInstall (os : Os) : DockerInstallAction :=
  if isInstance os.cls .Debian then
    .installPackages ["docker.io"]
  else if isInstance os.cls .CentOs && decide ("8.0" ≤ os.release) then
    .getDockerScript
  else if isInstance os.cls .Redhat then
    .installPackages ["docker", "docker-ce", "docker.socket", "docker.service"]
  else if isInstance os.cls .CBLMariner then
    .marinerStaticInstall
  else
    .raiseUnsupported (os.vendor ++ " not supported")

/-- `Gpu._redhat_gpu_dependencies` from src/lisa/features/gpu.py. -/
def redhatGpuDependencies : List String :=
  ["kernel-devel-$(uname -r)", "kernel-headers-$(uname -r)", "mesa-libGL",
   "mesa-libEGL", "libglvnd-devel", "dkms"]

/-- `Gpu._ubuntu_gpu_dependencies` from src/lisa/features/gpu.py. -/
def ubuntuGpuDependencies : List String :=
  ["build-essential", "libelf-dev", "linux-tools-$(uname -r)",
   "linux-cloud-tools-$(uname -r)", "python", "libglvnd-dev", "ubuntu-desktop"]

/-- `Gpu._install_gpu_dep`: installs the Redhat dependency list on Redhat
derivatives, the Ubuntu list on Ubuntu derivatives, and raises
`LisaException(f"Distro {self._node.os.name} is not supported for GPU.")`
otherwise. -/
def gpuInstallDep (os : Os) : Except String (List String) :=
  if isInstance os.cls .Redhat then
    .ok redhatGpuDependencies
  else if isInstance os.cls .Ubuntu then
    .ok ubuntuGpuDependencies
  else
    .error ("Distro " ++ os.name ++ " is not supported for GPU.")

/-- A SUSE node, an OS outside both supported sets. -/
def suseOs : Os := { cls := .Suse, release := "15", vendor := "SUSE", name := "SLES" }

/-! ## Package installers and Python name mangling
(src/lisa/sut_orchestrator/libvirt/transformers.py) -/

/-- A distro-to-packages mapping: OS class name to package list. -/
abbrev DistroMapping := List (String × List String)

/-- Python name mangling: inside the body of class `C`, a reference to
`self.__distro_package_mapping` compiles to the attribute name
`_C__distro_package_mapping`, where `C` is the class whose body contains the
reference, not the runtime class of `self`. -/
def mangleMapping (cls : String) : String :=
  "_" ++ cls ++ "__distro_package_mapping"

/-- The `PackageInstaller` subclasses of transformers.py (plus the base
class itself). -/
inductive InstallerClass
  | PackageInstaller
  | LibvirtPackageInstaller
  | QemuPackageInstaller
  | CloudHypervisorPackageInstaller
  deriving DecidableEq, Repr

/-- The Python class name of each installer class. -/
def InstallerClass.className : InstallerClass → String
  | .PackageInstaller => "PackageInstaller"
  | .LibvirtPackageInstaller => "LibvirtPackageInstaller"
  | .QemuPackageInstaller => "QemuPackageInstaller"
  | .CloudHypervisorPackageInstaller => "CloudHypervisorPackageInstaller"

/-- The class attribute dictionary each class declares in its body: each
class body assigns `__distro_package_mapping = {...}`, which Python stores
under the mangled name `_<ClassName>__distro_package_mapping`.
`PackageInstaller`'s own mapping is the empty dict (transformers.py line
161); the subclasses declare the mappings written next to them. -/
def InstallerClass.classDict : InstallerClass → List (String × DistroMapping)
  | .PackageInstaller =>
    [(mangleMapping "PackageInstaller", [])]
  | .LibvirtPackageInstaller =>
    [(mangleMapping "LibvirtPackageInstaller",
      [("Ubuntu", ["libvirt-daemon-system"]),
       ("CBLMariner", ["dmidecode", "dnsmasq", "ebtables", "libvirt*"])])]
  | .QemuPackageInstaller =>
    [(mangleMapping "QemuPackageInstaller",
      [("Ubuntu", ["qemu-kvm"]), ("CBLMariner", ["qemu-kvm"])])]
  | .CloudHypervisorPackageInstaller =>
    [(mangleMapping "CloudHypervisorPackageInstaller",
      [("CBLMariner", ["cloud-hypervisor*"])])]

/-- The method resolution order of each installer class. -/
def InstallerClass.mro : InstallerClass → List InstallerClass
  | .PackageInstaller => [.PackageInstaller]
  | c => [c, .PackageInstaller]

/-- Attribute lookup along a method resolution order: the first class whose
dictionary binds the attribute wins. -/
def lookupAttr : List InstallerClass → String → Option DistroMapping
  | [], _ => none
  | c :: cs, attr =>
    match (c.classDict).lookup attr with
    | some v => some v
    | none => lookupAttr cs attr

/-- Python's `getattr(self, attr)` restricted to class attributes. -/
def getattrMapping (self : InstallerClass) (attr : String) : Option DistroMapping :=
  lookupAttr self.mro attr

/-- The distro package mapping an installer class itself declares — the
dict literally written in its class body, e.g.
`Ubuntu ↦ ["libvirt-daemon-system"]` for `LibvirtPackageInstaller`. -/
def declaredMapping (c : InstallerClass) : DistroMapping :=
  (getattrMapping c (mangleMapping c.className)).getD []

/-- Python errors surfaced by `PackageInstaller.install`. -/
inductive PyError
  | KeyError (key : String)
  | AttributeError (attr : String)
  deriving DecidableEq, Repr

/-- `PackageInstaller.validate` (transformers.py lines 167-171): asserts
`type(self._node.os).__name__ in self.__distro_package_mapping`.  Because
`validate` is defined in the body of `PackageInstaller`, the private
reference is mangled to `_PackageInstaller__distro_package_mapping`
regardless of `self`'s runtime class.  Returns whether the assert passes. -/
def PackageInstaller.validate (self : InstallerClass) (osClassName : String) : Bool :=
  match getattrMapping self (mangleMapping "PackageInstaller") with
  | some m => (m.lookup osClassName).isSome
  | none => false

/-- `PackageInstaller.install` (transformers.py lines 173-182): reads
`self.__distro_package_mapping[type(linux).__name__]` — again mangled to
`_PackageInstaller__distro_package_mapping` — installs that package list
and returns the probed version string. -/
def PackageInstaller.install (self : InstallerClass) (osClassName : String)
    (probedVersion : String) : Except PyError (List String × String) :=
  match getattrMapping self (mangleMapping "PackageInstaller") with
  | none => .error (.AttributeError (mangleMapping "PackageInstaller"))
  | some m =>
    match m.lookup osClassName with
    | none => .error (.KeyError osClassName)
    | some packages => .ok (packages, probedVersion)

/-! ## Capability matcher (modelled from the spec)

The matcher (`Satisfies`/`Merge` of spec section 4.1) lives in the
framework's search-space module, which is not under `src/`; the test
suites under `src/` only declare requirements against it.  The
definitions below are modelled from the spec's wording. -/

/-- Modelled from the spec: the network data-path values used by the
requirement declarations in src (`Sriov()`, `Synthetic()`), an
`enum-exact` dimension. -/
inductive NetworkDataPath
  | Synthetic
  | Sriov
  deriving DecidableEq, Repr

/-- Modelled from the spec: the disk-type values named by the spec and by
the `Disk*` settings constructors in src/lisa/features/disks.py, an
`enum-exact` dimension. -/
inductive DiskType
  | Ephemeral
  | PremiumSSDLRS
  | StandardHDDLRS
  | StandardSSDLRS
  deriving DecidableEq, Repr

/-- Modelled from the spec: `scalar-min` satisfaction — satisfied iff
`capability.value >= requirement.value`; an unset requirement constrains
nothing; a missing capability value is treated as minus infinity, so it
never satisfies a non-unset requirement. -/
def scalarMinSatisfies (cap req : Option Nat) : Bool :=
  match req with
  | none => true
  | some r =>
    match cap with
    | none => false
    | some c => decide (r ≤ c)

/-- Modelled from the spec: `enum-exact` satisfaction — satisfied iff the
capability value equals the requirement value, or the requirement is
unset; a missing capability value never satisfies a non-unset
requirement. -/
def enumExactSatisfies {α : Type} [DecidableEq α] (cap req : Option α) : Bool :=
  match req with
  | none => true
  | some r =>
    match cap with
    | none => false
    | some c => decide (c = r)

/-- Modelled from the spec: the `network_interface` dimension of a node
capability — a structured dimension with a `scalar-min` NIC count and an
`enum-exact` data path. -/
structure NetworkInterfaceCapability where
  nic_count : Option Nat := none
  data_path : Option NetworkDataPath := none
  deriving DecidableEq, Repr

/-- Modelled from the spec: the `network_interface` requirement shape used
by `simple_requirement(min_nic_count=..., network_interface=...)` in the
src test suites. -/
structure NetworkInterfaceRequirement where
  min_nic_count : Option Nat := none
  data_path : Option NetworkDataPath := none
  deriving DecidableEq, Repr

/-- Modelled from the spec: `Satisfies` on the structured
`network_interface` dimension — recurse field by field. -/
def networkInterfaceSatisfies (cap : NetworkInterfaceCapability)
    (req : NetworkInterfaceRequirement) : Bool :=
  scalarMinSatisfies cap.nic_count req.min_nic_count &&
    enumExactSatisfies cap.data_path req.data_path

/-- The capability of C1's example node: 3 NICs, SR-IOV data path. -/
def cap3Sriov : NetworkInterfaceCapability :=
  { nic_count := some 3, data_path := some .Sriov }

/-- The requirement `{min_nic_count: 2, network_interface: Sriov}` of
`Dpdk.verify_dpdk_build_netvsc`. -/
def req2Sriov : NetworkInterfaceRequirement :=
  { min_nic_count := some 2, data_path := some .Sriov }

/-- The requirement `{min_nic_count: 4}`. -/
def req4Nics : NetworkInterfaceRequirement :=
  { min_nic_count := some 4 }

/-- Modelled from the spec: a requirement over the dimensions the spec's
merge table covers — two `scalar-min` dimensions (`min_nic_count` and the
non-dimensional `min_count` qualifier, both max-merged), two `enum-exact`
dimensions (`disk_type`, `network_data_path`) and one `flag-or` dimension
(`gpu_enabled`). -/
structure Requirement where
  min_nic_count : Option Nat := none
  min_count : Option Nat := none
  disk_type : Option DiskType := none
  data_path : Option NetworkDataPath := none
  gpu_enabled : Bool := false
  deriving DecidableEq, Repr

/-- Modelled from the spec: a per-dimension merge conflict "naming both
values and the dimension".  The two values are recorded as an unordered
pair, kept in canonical (lexicographic) order. -/
structure Conflict where
  dimension : String
  value1 : String
  value2 : String
  deriving DecidableEq, Repr

/-- Build the conflict for a dimension from its two values, canonically
ordered. -/
def mkConflict (dim a b : String) : Conflict :=
  if a ≤ b then ⟨dim, a, b⟩ else ⟨dim, b, a⟩

/-- Modelled from the spec: `scalar-min` merge is `max(a, b)`; unset is
absorbed. -/
def mergeScalarMin (a b : Option Nat) : Option Nat :=
  match a, b with
  | none, b => b
  | some x, none => some x
  | some x, some y => some (max x y)

/-- Modelled from the spec: `enum-exact` merge — if the values are equal or
one side is unset, the result is the non-unset value; else a conflict
naming both values and the dimension (the dimension's merged value is then
meaningless and left unset). -/
def mergeEnumExact {α : Type} [DecidableEq α] (dim : String) (toStr : α → String)
    (a b : Option α) : Option α × List Conflict :=
  match a, b with
  | none, b => (b, [])
  | some x, none => (some x, [])
  | some x, some y =>
    if x = y then (some x, [])
    else (none, [mkConflict dim (toStr x) (toStr y)])

/-- Printable name of a disk type, as used in conflict reports. -/
def diskTypeStr : DiskType → String
  | .Ephemeral => "Ephemeral"
  | .PremiumSSDLRS => "PremiumSSDLRS"
  | .StandardHDDLRS => "StandardHDDLRS"
  | .StandardSSDLRS => "StandardSSDLRS"

/-- Printable name of a network data path, as used in conflict reports. -/
def dataPathStr : NetworkDataPath → String
  | .Synthetic => "Synthetic"
  | .Sriov => "Sriov"

/-- Modelled from the spec: `Merge(a, b) -> (Requirement, ConflictList)` —
per-dimension merge with conflicts collected across dimensions, not
short-circuited, and never raised. -/
def mergeRequirement (a b : Requirement) : Requirement × List Conflict :=
  ({ min_nic_count := mergeScalarMin a.min_nic_count b.min_nic_count,
     min_count := mergeScalarMin a.min_count b.min_count,
     disk_type := (mergeEnumExact "disk_type" diskTypeStr a.disk_type b.disk_type).1,
     data_path :=
       (mergeEnumExact "network_data_path" dataPathStr a.data_path b.data_path).1,
     gpu_enabled := a.gpu_enabled || b.gpu_enabled },
   (mergeEnumExact "disk_type" diskTypeStr a.disk_type b.disk_type).2 ++
     (mergeEnumExact "network_data_path" dataPathStr a.data_path b.data_path).2)

/-- The requirement `{disk_type: PremiumSSDLRS}`. -/
def reqDiskPremium : Requirement := { disk_type := some .PremiumSSDLRS }

/-- The requirement `{disk_type: StandardHDDLRS}`. -/
def reqDiskStandardHdd : Requirement := { disk_type := some .StandardHDDLRS }

/-! ## Component resolver (modelled from the spec)

The per-node Feature/Tool resolver (`node.tools[...]`, spec section 4.3)
lives in the framework's executable module, which is not under `src/`;
the sources only declare tool classes (`Docker`, `HibernationSetup`) and
call into the resolver.  The state machine below is modelled from the
spec's wording, for a single node.  Dependency resolution is modelled to
depth one, which covers the dependency lists declared in src (`Git` and
`Make` declare no dependencies of their own). -/

/-- Modelled from the spec: the per-pair resolution states of spec 4.3. -/
inductive ResolveState
  | Unresolved
  | Probed
  | Installed
  | Enabled
  | Disabled
  deriving DecidableEq, Repr

/-- Modelled from the spec: a registered tool implementation — whether its
install routine may run (`can_install`) and the discriminators it depends
on, in declaration order. -/
structure ToolSpec where
  can_install : Bool := true
  dependencies : List String := []
  deriving DecidableEq, Repr

/-- Modelled from the spec: the resolver's fixed context for one node —
the registry keyed by discriminator, and the set of discriminators whose
install routine succeeds in making the executable present (the outcome of
the remote install commands, opaque to the core). -/
structure ResolverContext where
  registry : List (String × ToolSpec) := []
  installWorks : List String := []
  deriving DecidableEq, Repr

/-- Modelled from the spec: the mutable per-node resolver state — the
cache of resolved instances with their states, the set of executables
present on the node, and the chronological log of install attempts. -/
structure ResolverState where
  cache : List (String × ResolveState) := []
  present : List String := []
  installs : List String := []
  deriving DecidableEq, Repr

/-- Errors surfaced by `Get`, from the spec's error taxonomy. -/
inductive ResolveError
  | UnknownDiscriminator (discriminator : String)
  | InstallationFailed (discriminator : String)
  deriving DecidableEq, Repr

/-- The cached state of a `(node, discriminator)` pair; `Unresolved` when
no instance exists yet. -/
def cachedState (s : ResolverState) (d : String) : ResolveState :=
  (s.cache.lookup d).getD .Unresolved

/-- The discriminators currently holding a resolved instance. -/
def cacheKeys (s : ResolverState) : List String :=
  s.cache.map Prod.fst

/-- Modelled from the spec: resolution of a single discriminator, spec 4.3
steps (1) and (3): return the cached instance if one exists (no
re-probing); otherwise look the discriminator up in the registry, probe
the executable's presence, and if absent and installable run the install
routine and re-probe, failing with `InstallationFailed` when the
executable is still absent — in which case no instance is cached. -/
def getBase (ctx : ResolverContext) (s : ResolverState) (d : String) :
    Except ResolveError ResolveState × ResolverState :=
  match s.cache.lookup d with
  | some st => (.ok st, s)
  | none =>
    match ctx.registry.lookup d with
    | none => (.error (.UnknownDiscriminator d), s)
    | some spec =>
      if d ∈ s.present then
        (.ok .Installed, { s with cache := (d, .Installed) :: s.cache })
      else if spec.can_install then
        if d ∈ (if d ∈ ctx.installWorks then d :: s.present else s.present) then
          (.ok .Installed,
           { cache := (d, .Installed) :: s.cache,
             present := if d ∈ ctx.installWorks then d :: s.present else s.present,
             installs := s.installs ++ [d] })
        else
          (.error (.InstallationFailed d),
           { s with
             present := if d ∈ ctx.installWorks then d :: s.present else s.present,
             installs := s.installs ++ [d] })
      else
        (.error (.InstallationFailed d), s)

/-- Modelled from the spec: depth-first resolution of a dependency list,
in declaration order; the first failure aborts and is reported. -/
def resolveDeps (ctx : ResolverContext) :
    ResolverState → List String → Except ResolveError Unit × ResolverState
  | s, [] => (.ok (), s)
  | s, d :: ds =>
    match getBase ctx s d with
    | (.ok _, s1) => resolveDeps ctx s1 ds
    | (.error e, s1) => (.error e, s1)

/-- Modelled from the spec: `Get(node, discriminator)` — the cached
instance if one exists; otherwise the declared dependencies are resolved
depth-first before the tool itself is probed and installed.  The final
`getBase` re-checks the cache, so a discriminator resolved while its own
dependency list was processed is returned rather than re-installed. -/
def get (ctx : ResolverContext) (s : ResolverState) (d : String) :
    Except ResolveError ResolveState × ResolverState :=
  match s.cache.lookup d with
  | some st => (.ok st, s)
  | none =>
    match ctx.registry.lookup d with
    | none => (.error (.UnknownDiscriminator d), s)
    | some spec =>
      match resolveDeps ctx s spec.dependencies with
      | (.ok _, s1) => getBase ctx s1 d
      | (.error e, s1) => (.error e, s1)

/-- A registry holding only `docker`, installable with no dependencies. -/
def dockerCtx : ResolverContext :=
  { registry := [("docker", { can_install := true, dependencies := [] })],
    installWorks := ["docker"] }

/-- A context whose docker install routine always exits non-zero. -/
def dockerFailCtx : ResolverContext :=
  { registry := [("docker", { can_install := true, dependencies := [] })],
    installWorks := [] }

/-- The hibernation-setup registry from src: `hibernation-setup-tool`
declares dependencies `[Git, Make]` (src/lisa/tools/hibernation_setup.py
lines 26-28) and all install routines succeed. -/
def hibernationCtx : ResolverContext :=
  { registry :=
      [("git", { can_install := true, dependencies := [] }),
       ("make", { can_install := true, dependencies := [] }),
       ("hibernation-setup-tool",
        { can_install := true, dependencies := ["git", "make"] })],
    installWorks := ["git", "make", "hibernation-setup-tool"] }

/-- A fresh node: empty cache, nothing present, no installs attempted. -/
def freshNode : ResolverState := {}

/-- The state of a fresh node after `docker` has been resolved and
installed. -/
def dockerResolved : ResolverState :=
  { cache := [("docker", .Installed)],
    present := ["docker"],
    installs := ["docker"] }

/-- The state of a fresh node after `hibernation-setup-tool` has been
resolved: its dependencies were installed first, depth-first in
declaration order. -/
def hibernationResolved : ResolverState :=
  { cache :=
      [("hibernation-setup-tool", .Installed),
       ("make", .Installed),
       ("git", .Installed)],
    present := ["hibernation-setup-tool", "make", "git"],
    installs := ["git", "make", "hibernation-setup-tool"] }

end Lisa

namespace Lisa

/-! ## Theorems for GpuSettings hashing (C8) -/

/-- C8: `GpuSettings` computes its hash solely from `(type, install_by_platform)`:
two instances agreeing on those fields have equal hash values even when
`is_enabled` differs. -/
theorem gpuSettings_hash_ignores_is_enabled (a b : GpuSettings)
    (htype : a.type = b.type)
    (hplat : a.install_by_platform = b.install_by_platform) :
    a.hashValue = b.hashValue := by
  simp [GpuSettings.hashValue, GpuSettings.get_key, htype, hplat]

/-- Witness for C8: `GpuEnabled` and the default settings differ on
`is_enabled` yet hash identically. -/
theorem gpuSettings_hash_ignores_is_enabled_witness :
    GpuEnabled.is_enabled ≠ GpuSettingsDefault.is_enabled ∧
    GpuEnabled.hashValue = GpuSettingsDefault.hashValue :=
  ⟨by decide,
   gpuSettings_hash_ignores_is_enabled GpuEnabled GpuSettingsDefault rfl rfl⟩

/-! ## Theorems for calculate_middle_average (C9) -/

/-- C9: for a list of at least 3 numbers, `calculate_middle_average` returns
`(sum - min - max) / (length - 2)`; for a list of exactly 2 numbers the
divisor is zero and the function fails rather than returning a value. -/
theorem calculate_middle_average_spec (values : List ℚ) :
    (3 ≤ values.length →
      calculate_middle_average values =
        .ok ((values.sum - values.min?.getD 0 - values.max?.getD 0) /
          ((values.length : ℚ) - 2))) ∧
    (values.length = 2 → (calculate_middle_average values).isOk = false) := by
  constructor
  · intro h
    match values with
    | [] => simp at h
    | v :: vs =>
      have h2 : ¬(vs.length = 1) := by simp at h; omega
      simp [calculate_middle_average, h2, listMin, listMax, List.min?, List.max?]
  · intro h
    match values with
    | [] => simp at h
    | v :: vs => simp [calculate_middle_average, h, Except.isOk, Except.toBool]

/-- Witness for C9: `calculate_middle_average` on `[1, 2, 4]` and on `[1, 2]`. -/
theorem calculate_middle_average_spec_witness :
    calculate_middle_average [1, 2, 4] =
      .ok ((([1, 2, 4] : List ℚ).sum - ([1, 2, 4] : List ℚ).min?.getD 0 -
        ([1, 2, 4] : List ℚ).max?.getD 0) /
          ((([1, 2, 4] : List ℚ).length : ℚ) - 2)) ∧
    (calculate_middle_average [1, 2]).isOk = false :=
  ⟨(calculate_middle_average_spec [1, 2, 4]).1 (by decide),
   (calculate_middle_average_spec [1, 2]).2 (by decide)⟩

/-! ## Theorems for remove_virtual_gpus (C10) -/

/-- C10: `remove_virtual_gpus` returns exactly the sublist of devices whose
vendor is not `"Microsoft Corporation"`: the result is a sublist of the
input (so original order is preserved and the input is not rearranged), a
device is in the result iff it is in the input with a non-Microsoft vendor,
and multiplicities of kept devices are preserved. -/
theorem remove_virtual_gpus_spec (devices : List PciDevice) :
    List.Sublist (remove_virtual_gpus devices) devices ∧
    (∀ x : PciDevice, x ∈ remove_virtual_gpus devices ↔
        (x ∈ devices ∧ x.vendor ≠ "Microsoft Corporation")) ∧
    (∀ x : PciDevice, (remove_virtual_gpus devices).count x =
        if x.vendor = "Microsoft Corporation" then 0 else devices.count x) := by
  refine ⟨List.filter_sublist devices, ?_, ?_⟩
  · intro x
    simp [remove_virtual_gpus, List.mem_filter]
  · intro x
    by_cases h : x.vendor = "Microsoft Corporation"
    · simp only [h, if_pos rfl]
      refine List.count_eq_zero.mpr ?_
      simp [remove_virtual_gpus, List.mem_filter, h]
    · rw [if_neg h]
      refine List.count_filter ?_
      simp [h]

/-! ## Resolver lemmas -/

/-- A key that `lookup` misses is not among the keys. -/
theorem lookup_none_not_mem {β : Type} (l : List (String × β)) (x : String)
    (h : l.lookup x = none) : x ∉ l.map Prod.fst := by
  induction l with
  | nil => simp
  | cons p t ih =>
    obtain ⟨k, v⟩ := p
    by_cases hx : x = k
    · subst hx
      simp [List.lookup_cons] at h
    · simp only [List.lookup_cons, beq_eq_false_iff_ne.mpr hx, if_false] at h
      simp [hx, ih h]

/-- Shape of the state after one `getBase` step: the cache is unchanged or
gains the resolved entry at the head (only when the pair was unresolved),
the install log is unchanged or gains one attempt for this discriminator,
and the present set is unchanged or gains this executable. -/
theorem getBase_shape (ctx : ResolverContext) (s : ResolverState) (d : String) :
    ((getBase ctx s d).2.cache = s.cache ∨
      ((getBase ctx s d).2.cache = (d, .Installed) :: s.cache ∧
        s.cache.lookup d = none)) ∧
    ((getBase ctx s d).2.installs = s.installs ∨
      (getBase ctx s d).2.installs = s.installs ++ [d]) ∧
    ((getBase ctx s d).2.present = s.present ∨
      (getBase ctx s d).2.present = d :: s.present) := by
  unfold getBase
  cases hc : s.cache.lookup d with
  | some st => simp
  | none =>
    cases hr : ctx.registry.lookup d with
    | none => simp
    | some spec =>
      by_cases hp : d ∈ s.present
      · simp [hp, hc]
      · by_cases hci : spec.can_install
        · by_cases hw : d ∈ ctx.installWorks
          · simp [hp, hci, hw, hc]
          · simp [hp, hci, hw, hc]
        · simp [hp, hci]

/-- `getBase` preserves every cached binding. -/
theorem getBase_lookup_mono (ctx : ResolverContext) (s : ResolverState)
    (a x : String) (v : ResolveState) (h : s.cache.lookup x = some v) :
    (getBase ctx s a).2.cache.lookup x = some v := by
  obtain ⟨hcache, -, -⟩ := getBase_shape ctx s a
  cases hcache with
  | inl he => rw [he, h]
  | inr he =>
    obtain ⟨he, hn⟩ := he
    have hx : x ≠ a := by
      intro e
      rw [e, hn] at h
      cases h
    simp [he, List.lookup_cons, beq_eq_false_iff_ne.mpr hx, h]

/-- `getBase` preserves distinctness of the cached discriminators. -/
theorem getBase_keys_nodup (ctx : ResolverContext) (s : ResolverState)
    (a : String) (h : (cacheKeys s).Nodup) :
    (cacheKeys (getBase ctx s a).2).Nodup := by
  obtain ⟨hcache, -, -⟩ := getBase_shape ctx s a
  cases hcache with
  | inl he => simpa [cacheKeys, he] using h
  | inr he =>
    obtain ⟨he, hn⟩ := he
    simp only [cacheKeys, he, List.map_cons]
    exact List.nodup_cons.mpr ⟨lookup_none_not_mem _ _ hn, h⟩

/-- Resolving one discriminator never logs an install attempt for a
different one. -/
theorem getBase_count_other (ctx : ResolverContext) (s : ResolverState)
    (a x : String) (hx : x ≠ a) :
    ((getBase ctx s a).2.installs).count x = (s.installs).count x := by
  obtain ⟨-, hins, -⟩ := getBase_shape ctx s a
  cases hins with
  | inl he => rw [he]
  | inr he => simp [he, List.count_append, hx]

/-- Resolving one discriminator never makes a different executable present. -/
theorem getBase_present_other (ctx : ResolverContext) (s : ResolverState)
    (a x : String) (hx : x ≠ a) (h : x ∉ s.present) :
    x ∉ (getBase ctx s a).2.present := by
  obtain ⟨-, -, hpres⟩ := getBase_shape ctx s a
  cases hpres with
  | inl he => rw [he]; exact h
  | inr he => simp [he, hx, h]

/-- Resolving one discriminator leaves a different unresolved pair
unresolved. -/
theorem getBase_lookup_none_other (ctx : ResolverContext) (s : ResolverState)
    (a x : String) (hx : x ≠ a) (h : s.cache.lookup x = none) :
    (getBase ctx s a).2.cache.lookup x = none := by
  obtain ⟨hcache, -, -⟩ := getBase_shape ctx s a
  cases hcache with
  | inl he => rw [he]; exact h
  | inr he =>
    obtain ⟨he, -⟩ := he
    simp [he, List.lookup_cons, beq_eq_false_iff_ne.mpr hx, h]

/-- A successful `getBase` leaves the resolved instance in the cache. -/
theorem getBase_ok_lookup (ctx : ResolverContext) (s : ResolverState)
    (d : String) (st : ResolveState) (t : ResolverState)
    (h : getBase ctx s d = (.ok st, t)) :
    t.cache.lookup d = some st := by
  unfold getBase at h
  split at h
  next st0 hc =>
    injection h with h1 h2
    injection h1 with h1
    subst h1
    subst h2
    exact hc
  next hc =>
    split at h
    next => simp at h
    next spec hr =>
      split at h
      next hp =>
        injection h with h1 h2
        injection h1 with h1
        subst h1
        subst h2
        simp [List.lookup_cons]
      next hp =>
        split at h
        next hci =>
          by_cases hw : d ∈ ctx.installWorks
          · simp only [if_pos hw] at h
            rw [if_pos (List.mem_cons_self d s.present)] at h
            injection h with h1 h2
            injection h1 with h1
            subst h1
            subst h2
            simp [List.lookup_cons]
          · simp only [if_neg hw] at h
            rw [if_neg hp] at h
            simp at h
        next hci => simp at h

/-- A successful `getBase` step changes the install count of any
discriminator by at most one, and an increment means the discriminator is
now cached; a discriminator already cached is left untouched. -/
theorem getBase_ok_countd (ctx : ResolverContext) (s : ResolverState)
    (a d : String) (st : ResolveState) (t : ResolverState)
    (h : getBase ctx s a = (.ok st, t)) :
    ((s.cache.lookup d).isSome = true →
      t.installs.count d = s.installs.count d ∧
        (t.cache.lookup d).isSome = true) ∧
    t.installs.count d ≤ s.installs.count d + 1 ∧
    (s.installs.count d < t.installs.count d →
      (t.cache.lookup d).isSome = true) := by
  have ht : (getBase ctx s a).2 = t := by rw [h]
  by_cases had : a = d
  · subst had
    have hlook : t.cache.lookup a = some st := getBase_ok_lookup ctx s a st t h
    obtain ⟨-, hins, -⟩ := getBase_shape ctx s a
    rw [ht] at hins
    refine ⟨?_, ?_, ?_⟩
    · intro hsome
      obtain ⟨v, hv⟩ := Option.isSome_iff_exists.mp hsome
      have := getBase_lookup_mono ctx s a a v hv
      rw [ht] at this
      refine ⟨?_, by simp [this]⟩
      -- already cached: getBase takes the cached branch and changes nothing
      unfold getBase at h
      rw [hv] at h
      injection h with h1 h2
      rw [h2]
    · cases hins with
      | inl he => simp [he]
      | inr he => simp [he, List.count_append]
    · intro _
      simp [hlook]
  · have hcnt : t.installs.count d = s.installs.count d := by
      have := getBase_count_other ctx s a d (fun e => had e.symm)
      rw [ht] at this
      exact this
    refine ⟨?_, by omega, by omega⟩
    intro hsome
    obtain ⟨v, hv⟩ := Option.isSome_iff_exists.mp hsome
    have := getBase_lookup_mono ctx s a d v hv
    rw [ht] at this
    exact ⟨hcnt, by simp [this]⟩

/-- Depth-first dependency resolution preserves every cached binding. -/
theorem resolveDeps_lookup_mono (ctx : ResolverContext) (ds : List String) :
    ∀ (s : ResolverState) (x : String) (v : ResolveState),
      s.cache.lookup x = some v →
      (resolveDeps ctx s ds).2.cache.lookup x = some v := by
  induction ds with
  | nil => intro s x v h; exact h
  | cons a t ih =>
    intro s x v h
    simp only [resolveDeps]
    cases hg : getBase ctx s a with
    | mk r s1 =>
      have h1 : s1.cache.lookup x = some v := by
        have := getBase_lookup_mono ctx s a x v h
        rw [hg] at this
        exact this
      cases r with
      | ok u => exact ih s1 x v h1
      | error e => exact h1

/-- Depth-first dependency resolution preserves distinctness of the cached
discriminators. -/
theorem resolveDeps_nodup (ctx : ResolverContext) (ds : List String) :
    ∀ (s : ResolverState), (cacheKeys s).Nodup →
      (cacheKeys (resolveDeps ctx s ds).2).Nodup := by
  induction ds with
  | nil => intro s h; exact h
  | cons a t ih =>
    intro s h
    simp only [resolveDeps]
    cases hg : getBase ctx s a with
    | mk r s1 =>
      have h1 : (cacheKeys s1).Nodup := by
        have := getBase_keys_nodup ctx s a h
        rw [hg] at this
        exact this
      cases r with
      | ok u => exact ih s1 h1
      | error e => exact h1

/-- Resolving a dependency list not containing `d` neither makes `d`
present nor resolves it. -/
theorem resolveDeps_absent (ctx : ResolverContext) (ds : List String) :
    ∀ (s : ResolverState) (d : String), d ∉ ds → d ∉ s.present →
      s.cache.lookup d = none →
      d ∉ (resolveDeps ctx s ds).2.present ∧
        (resolveDeps ctx s ds).2.cache.lookup d = none := by
  induction ds with
  | nil => intro s d _ hp hc; exact ⟨hp, hc⟩
  | cons a t ih =>
    intro s d hd hp hc
    have hda : d ≠ a := fun e => hd (e ▸ List.mem_cons_self a t)
    have hdt : d ∉ t := fun e => hd (List.mem_cons_of_mem a e)
    simp only [resolveDeps]
    cases hg : getBase ctx s a with
    | mk r s1 =>
      have hp1 : d ∉ s1.present := by
        have := getBase_present_other ctx s a d hda hp
        rw [hg] at this
        exact this
      have hc1 : s1.cache.lookup d = none := by
        have := getBase_lookup_none_other ctx s a d hda hc
        rw [hg] at this
        exact this
      cases r with
      | ok u => exact ih s1 d hdt hp1 hc1
      | error e => exact ⟨hp1, hc1⟩

/-- A successful depth-first dependency resolution changes the install
count of any discriminator by at most one, an increment means the
discriminator ends up cached, and an already-cached discriminator is left
untouched. -/
theorem resolveDeps_ok_countd (ctx : ResolverContext) (ds : List String) :
    ∀ (s s1 : ResolverState) (d : String),
      resolveDeps ctx s ds = (.ok (), s1) →
      ((s.cache.lookup d).isSome = true →
        s1.installs.count d = s.installs.count d ∧
          (s1.cache.lookup d).isSome = true) ∧
      s1.installs.count d ≤ s.installs.count d + 1 ∧
      (s.installs.count d < s1.installs.count d →
        (s1.cache.lookup d).isSome = true) := by
  induction ds with
  | nil =>
    intro s s1 d h
    injection h with h1 h2
    subst h2
    exact ⟨fun hs => ⟨rfl, hs⟩, by omega, by omega⟩
  | cons a t ih =>
    intro s s1 d h
    simp only [resolveDeps] at h
    cases hg : getBase ctx s a with
    | mk r s2 =>
      rw [hg] at h
      cases r with
      | error e => simp at h
      | ok u =>
        have hC := getBase_ok_countd ctx s a d u s2 hg
        have hIH := ih s2 s1 d h
        refine ⟨?_, ?_, ?_⟩
        · intro hs
          obtain ⟨hcnt, hsome⟩ := hC.1 hs
          obtain ⟨hcnt2, hsome2⟩ := hIH.1 hsome
          exact ⟨hcnt2.trans hcnt, hsome2⟩
        · by_cases hinc : s.installs.count d < s2.installs.count d
          · have hsome2 := hC.2.2 hinc
            obtain ⟨hcnt2, -⟩ := hIH.1 hsome2
            have := hC.2.1
            omega
          · have := hIH.2.1
            omega
        · intro hlt
          by_cases hinc : s.installs.count d < s2.installs.count d
          · exact (hIH.1 (hC.2.2 hinc)).2
          · exact hIH.2.2 (by omega)

/-- After a successful depth-first dependency resolution, every
discriminator of the list holds a resolved instance in the cache. -/
theorem resolveDeps_ok_all (ctx : ResolverContext) (ds : List String) :
    ∀ (s s1 : ResolverState), resolveDeps ctx s ds = (.ok (), s1) →
      ∀ x ∈ ds, (s1.cache.lookup x).isSome = true := by
  induction ds with
  | nil => intro s s1 _ x hx; simp at hx
  | cons a t ih =>
    intro s s1 h x hx
    simp only [resolveDeps] at h
    cases hg : getBase ctx s a with
    | mk r s2 =>
      rw [hg] at h
      cases r with
      | error e => simp at h
      | ok u =>
        by_cases hxa : x = a
        · subst hxa
          have hl := getBase_ok_lookup ctx s x u s2 hg
          have hmono := resolveDeps_lookup_mono ctx t s2 x u hl
          have h2 : resolveDeps ctx s2 t = (.ok (), s1) := h
          rw [h2] at hmono
          simp [hmono]
        · have hxt : x ∈ t := by
            cases List.mem_cons.mp hx with
            | inl he => exact absurd he hxa
            | inr ht => exact ht
          exact ih s2 s1 h x hxt

/-- A cached pair is returned as-is by `Get`. -/
theorem get_cached (ctx : ResolverContext) (s : ResolverState) (d : String)
    (st : ResolveState) (h : s.cache.lookup d = some st) :
    get ctx s d = (.ok st, s) := by
  unfold get
  rw [h]

/-! ## Theorems for the component resolver (C3, C4, C7) -/

/-- C3: after a successful `Get` for a discriminator, a second `Get` for
the same pair returns the identical cached instance and state, without new
install attempts; across the first call at most one install attempt for
the discriminator is triggered; and distinctness of cached discriminators
is preserved, so exactly one resolved instance exists per pair. -/
theorem get_idempotent (ctx : ResolverContext) (s : ResolverState) (d : String)
    (st : ResolveState) (s' : ResolverState)
    (h : get ctx s d = (.ok st, s')) :
    get ctx s' d = (.ok st, s') ∧
    s'.installs.count d ≤ s.installs.count d + 1 ∧
    ((cacheKeys s).Nodup → (cacheKeys s').Nodup) := by
  unfold get at h
  split at h
  next st0 hc =>
    injection h with h1 h2
    injection h1 with h1
    subst h1
    subst h2
    exact ⟨get_cached ctx s d st0 hc, by omega, fun hn => hn⟩
  next hc =>
    split at h
    next => simp at h
    next spec hr =>
      cases hrd : resolveDeps ctx s spec.dependencies with
      | mk r s1 =>
        rw [hrd] at h
        cases r with
        | error e => simp at h
        | ok u =>
          cases u
          have hB := resolveDeps_ok_countd ctx spec.dependencies s s1 d hrd
          have hC := getBase_ok_countd ctx s1 d d st s' h
          have hlook := getBase_ok_lookup ctx s1 d st s' h
          refine ⟨get_cached ctx s' d st hlook, ?_, ?_⟩
          · by_cases hs1 : (s1.cache.lookup d).isSome = true
            · obtain ⟨hcnt, -⟩ := hC.1 hs1
              have := hB.2.1
              omega
            · have hnoinc : ¬s.installs.count d < s1.installs.count d :=
                fun hlt => hs1 (hB.2.2 hlt)
              have h1 := hC.2.1
              omega
          · intro hn
            have hgb : getBase ctx s1 d = (.ok st, s') := h
            have hn1 := resolveDeps_nodup ctx spec.dependencies s hn
            rw [hrd] at hn1
            have hn2 := getBase_keys_nodup ctx s1 d hn1
            rw [hgb] at hn2
            exact hn2

/-- Witness for C3: resolving `docker` on a fresh node and calling `Get`
again on the resulting state. -/
theorem get_idempotent_witness :
    get dockerCtx dockerResolved "docker" = (.ok .Installed, dockerResolved) ∧
    dockerResolved.installs.count "docker" ≤ freshNode.installs.count "docker" + 1 ∧
    ((cacheKeys freshNode).Nodup → (cacheKeys dockerResolved).Nodup) :=
  get_idempotent dockerCtx freshNode "docker" .Installed dockerResolved rfl

/-- C4: a first `Get` for an absent, installable tool whose install
routine fails (the executable is still absent on re-probe) runs the
install routine, fails with `InstallationFailed`, and leaves the cached
state of the pair at `Unresolved`, never `Installed`. -/
theorem install_failure_not_cached (ctx : ResolverContext) (s : ResolverState)
    (d : String) (spec : ToolSpec)
    (hnew : s.cache.lookup d = none)
    (hreg : ctx.registry.lookup d = some spec)
    (hci : spec.can_install = true)
    (habs : d ∉ s.present)
    (hfail : d ∉ ctx.installWorks)
    (hnodep : d ∉ spec.dependencies)
    (hdeps : (resolveDeps ctx s spec.dependencies).1 = .ok ()) :
    (get ctx s d).1 = .error (.InstallationFailed d) ∧
    d ∈ (get ctx s d).2.installs ∧
    cachedState (get ctx s d).2 d = .Unresolved := by
  obtain ⟨hp1x, hc1x⟩ := resolveDeps_absent ctx spec.dependencies s d hnodep habs hnew
  cases hrd : resolveDeps ctx s spec.dependencies with
  | mk r s1 =>
    rw [hrd] at hdeps hp1x hc1x
    have hr : r = .ok () := hdeps
    subst hr
    have hp1 : d ∉ s1.present := hp1x
    have hc1 : s1.cache.lookup d = none := hc1x
    have hget : get ctx s d = getBase ctx s1 d := by
      simp only [get, hnew, hreg, hrd]
    have hbase : getBase ctx s1 d =
        (.error (.InstallationFailed d), { s1 with installs := s1.installs ++ [d] }) := by
      simp [getBase, hc1, hreg, hp1, hci, hfail]
    rw [hget, hbase]
    refine ⟨rfl, ?_, ?_⟩
    · simp
    · simp [cachedState, hc1]

/-- Witness for C4: a fresh node whose docker install routine always exits
non-zero. -/
theorem install_failure_not_cached_witness :
    (get dockerFailCtx freshNode "docker").1 =
      .error (.InstallationFailed "docker") ∧
    "docker" ∈ (get dockerFailCtx freshNode "docker").2.installs ∧
    cachedState (get dockerFailCtx freshNode "docker").2 "docker" = .Unresolved :=
  install_failure_not_cached dockerFailCtx freshNode "docker"
    { can_install := true, dependencies := [] }
    rfl rfl rfl (by decide) (by decide) (by decide) rfl

/-- C7: a successful first `Get` resolves every declared dependency —
each holds a cached instance afterwards — and the dependencies' install
routines run strictly before the dependent tool's own install routine, as
the install log of the `HibernationSetup` scenario from src shows: `git`
and `make` (its declared dependencies, in declaration order) are installed
before `hibernation-setup-tool` itself. -/
theorem deps_resolved_before_dependent (ctx : ResolverContext)
    (s : ResolverState) (d : String) (spec : ToolSpec) (st : ResolveState)
    (s' : ResolverState)
    (hnew : s.cache.lookup d = none)
    (hreg : ctx.registry.lookup d = some spec)
    (h : get ctx s d = (.ok st, s')) :
    (∀ dep ∈ spec.dependencies, ((s'.cache).lookup dep).isSome = true) ∧
    (get hibernationCtx freshNode "hibernation-setup-tool").2.installs =
      ["git", "make", "hibernation-setup-tool"] := by
  refine ⟨?_, rfl⟩
  cases hrd : resolveDeps ctx s spec.dependencies with
  | mk r s1 =>
    simp only [get, hnew, hreg, hrd] at h
    cases r with
    | error e => simp at h
    | ok u =>
      cases u
      have hgb : getBase ctx s1 d = (.ok st, s') := h
      intro dep hdep
      have hall := resolveDeps_ok_all ctx spec.dependencies s s1 hrd dep hdep
      obtain ⟨v, hv⟩ := Option.isSome_iff_exists.mp hall
      have hmono := getBase_lookup_mono ctx s1 d dep v hv
      rw [hgb] at hmono
      simp [hmono]

/-- Witness for C7: the `HibernationSetup` scenario — after `Get`, `git`
and `make` are resolved, and their installs precede the dependent's. -/
theorem deps_resolved_before_dependent_witness :
    ((hibernationResolved.cache).lookup "git").isSome = true ∧
    ((hibernationResolved.cache).lookup "make").isSome = true ∧
    (get hibernationCtx freshNode "hibernation-setup-tool").2.installs =
      ["git", "make", "hibernation-setup-tool"] := by
  have h := deps_resolved_before_dependent hibernationCtx freshNode
    "hibernation-setup-tool"
    { can_install := true, dependencies := ["git", "make"] } .Installed
    hibernationResolved rfl rfl rfl
  exact ⟨h.1 "git" (by decide), h.1 "make" (by decide), h.2⟩

/-! ## Theorems for the capability matcher (C1, C2) -/

/-- C1: the Sriov capability with 3 NICs satisfies the requirement
`{min_nic_count: 2, network_interface: Sriov}` but not `{min_nic_count: 4}`;
in general a scalar-min dimension is satisfied iff the capability value is
at least the requirement value, and a missing capability value never
satisfies a non-unset requirement. -/
theorem satisfies_scalar_min_spec :
    networkInterfaceSatisfies cap3Sriov req2Sriov = true ∧
    networkInterfaceSatisfies cap3Sriov req4Nics = false ∧
    (∀ c r : Nat, scalarMinSatisfies (some c) (some r) = decide (r ≤ c)) ∧
    (∀ r : Nat, scalarMinSatisfies none (some r) = false) ∧
    (∀ p : NetworkDataPath, enumExactSatisfies none (some p) = false) :=
  ⟨rfl, rfl, fun _ _ => rfl, fun _ => rfl, fun _ => rfl⟩

/-- A conflict names the unordered pair of values, so building it from the
two values in either order yields the same conflict. -/
theorem mkConflict_comm (dim a b : String) : mkConflict dim a b = mkConflict dim b a := by
  unfold mkConflict
  by_cases h1 : a ≤ b
  · by_cases h2 : b ≤ a
    · simp [h1, h2, le_antisymm h1 h2]
    · simp [h1, h2]
  · have h2 : b ≤ a := le_of_not_le h1
    simp [h1, h2]

/-- Scalar-min merge (`max`) is commutative. -/
theorem mergeScalarMin_comm (a b : Option Nat) :
    mergeScalarMin a b = mergeScalarMin b a := by
  cases a <;> cases b <;> simp [mergeScalarMin, Nat.max_comm]

/-- Enum-exact merge is commutative, including the reported conflict. -/
theorem mergeEnumExact_comm {α : Type} [DecidableEq α] (dim : String)
    (toStr : α → String) (a b : Option α) :
    mergeEnumExact dim toStr a b = mergeEnumExact dim toStr b a := by
  cases a with
  | none => cases b <;> rfl
  | some x =>
    cases b with
    | none => rfl
    | some y =>
      by_cases h : x = y
      · simp [mergeEnumExact, h]
      · simp [mergeEnumExact, h, Ne.symm h, mkConflict_comm]

/-- C2: `Merge` is commutative, including equality of the per-dimension
conflicts reported, and a merge failure on a dimension is reported as a
conflict naming that dimension and both values, never silently dropped. -/
theorem merge_commutative (a b : Requirement) :
    mergeRequirement a b = mergeRequirement b a ∧
    (∀ x y : DiskType, a.disk_type = some x → b.disk_type = some y → x ≠ y →
      mkConflict "disk_type" (diskTypeStr x) (diskTypeStr y) ∈
        (mergeRequirement a b).2) ∧
    (∀ x y : NetworkDataPath, a.data_path = some x → b.data_path = some y → x ≠ y →
      mkConflict "network_data_path" (dataPathStr x) (dataPathStr y) ∈
        (mergeRequirement a b).2) := by
  refine ⟨?_, ?_, ?_⟩
  · simp only [mergeRequirement, mergeScalarMin_comm, mergeEnumExact_comm,
      Bool.or_comm]
  · intro x y hx hy hxy
    simp [mergeRequirement, mergeEnumExact, hx, hy, hxy]
  · intro x y hx hy hxy
    simp [mergeRequirement, mergeEnumExact, hx, hy, hxy]

/-- Witness for C2: merging `{disk_type: PremiumSSDLRS}` with
`{disk_type: StandardHDDLRS}` commutes and reports the `disk_type`
conflict naming both values. -/
theorem merge_commutative_witness :
    mergeRequirement reqDiskPremium reqDiskStandardHdd =
      mergeRequirement reqDiskStandardHdd reqDiskPremium ∧
    mkConflict "disk_type" (diskTypeStr .PremiumSSDLRS) (diskTypeStr .StandardHDDLRS) ∈
      (mergeRequirement reqDiskPremium reqDiskStandardHdd).2 :=
  ⟨(merge_commutative reqDiskPremium reqDiskStandardHdd).1,
   (merge_commutative reqDiskPremium reqDiskStandardHdd).2.1 .PremiumSSDLRS
     .StandardHDDLRS rfl rfl (by decide)⟩

/-! ## Theorem for the PackageInstaller name-mangling bug (C6) -/

/-- C6 (code bug): `LibvirtPackageInstaller` declares the mapping
`Ubuntu ↦ ["libvirt-daemon-system"]`, yet `validate` fails and `install`
raises `KeyError` on an Ubuntu node, because the inherited methods read the
name-mangled attribute `_PackageInstaller__distro_package_mapping` — the
base class's own empty dict — never the subclass's mapping.  In fact
`validate` returns false for every installer class and OS class name. -/
theorem packageInstaller_mangling_bug :
    (declaredMapping .LibvirtPackageInstaller).lookup "Ubuntu" =
      some ["libvirt-daemon-system"] ∧
    PackageInstaller.validate .LibvirtPackageInstaller "Ubuntu" = false ∧
    PackageInstaller.install .LibvirtPackageInstaller "Ubuntu" "7.0.0" =
      .error (.KeyError "Ubuntu") ∧
    (∀ (c : InstallerClass) (osClassName : String),
      PackageInstaller.validate c osClassName = false) := by
  refine ⟨by decide, by decide, rfl, ?_⟩
  intro c osClassName
  cases c <;> rfl

/-! ## Theorems for unsupported-OS errors (C5) -/

/-- C5: installing on an unsupported OS fails with an error naming the
rejected OS and is never silently defaulted: `Docker.install` raises (with
the OS vendor in the message) exactly when the OS is not a Debian, CentOS,
Redhat or CBLMariner instance, and `Gpu._install_gpu_dep` raises (with the
distro name in the message) exactly when the OS is neither a Redhat nor an
Ubuntu instance. -/
theorem unsupported_os_raises (os : Os) :
    (dockerInstall os = .raiseUnsupported (os.vendor ++ " not supported") ↔
      (isInstance os.cls .Debian = false ∧ isInstance os.cls .CentOs = false ∧
        isInstance os.cls .Redhat = false ∧ isInstance os.cls .CBLMariner = false)) ∧
    (gpuInstallDep os = .error ("Distro " ++ os.name ++ " is not supported for GPU.") ↔
      (isInstance os.cls .Redhat = false ∧ isInstance os.cls .Ubuntu = false)) := by
  obtain ⟨cls, release, vendor, name⟩ := os
  cases cls <;>
    simp [dockerInstall, gpuInstallDep, isInstance, OsClass.ancestors] <;>
    split <;> simp

/-- Witness for C5: a SUSE node is rejected by both `Docker.install` and
`Gpu._install_gpu_dep`. -/
theorem unsupported_os_raises_witness :
    (dockerInstall suseOs = .raiseUnsupported (suseOs.vendor ++ " not supported") ↔
      (isInstance suseOs.cls .Debian = false ∧ isInstance suseOs.cls .CentOs = false ∧
        isInstance suseOs.cls .Redhat = false ∧ isInstance suseOs.cls .CBLMariner = false)) ∧
    (gpuInstallDep suseOs =
        .error ("Distro " ++ suseOs.name ++ " is not supported for GPU.") ↔
      (isInstance suseOs.cls .Redhat = false ∧ isInstance suseOs.cls .Ubuntu = false)) :=
  unsupported_os_raises suseOs

/-- Witness for C10: filtering a concrete two-device list keeps only the
non-Microsoft device. -/
theorem remove_virtual_gpus_spec_witness :
    List.Sublist (remove_virtual_gpus [msVirtualDevice, nvidiaDevice])
      [msVirtualDevice, nvidiaDevice] ∧
    (nvidiaDevice ∈ remove_virtual_gpus [msVirtualDevice, nvidiaDevice] ↔
        (nvidiaDevice ∈ [msVirtualDevice, nvidiaDevice] ∧
          nvidiaDevice.vendor ≠ "Microsoft Corporation")) :=
  ⟨(remove_virtual_gpus_spec [msVirtualDevice, nvidiaDevice]).1,
   (remove_virtual_gpus_spec [msVirtualDevice, nvidiaDevice]).2.1 nvidiaDevice⟩

end Lisa
